import Mathlib

/-!
Verification development for the filter-item core of the perspective viewer
(src/rust/perspective-viewer/src/rust/components/filter_item.rs).

The Rust component manipulates one Filter = (column, op, term) at an index
inside the externally owned view configuration list.  We embed the data
model and the functions `is_suggestable`, `get_filter_ops`,
`update_filter_op`, `update_filter_value`, and the two paths that populate
the editable text field from a stored term (`create` and `change`).

Modelling conventions, stated once here:

* Machine integers: the `u64` stored in `Scalar::DateTime` is a `Nat`
  (values taken modulo 2 ^ 64 via `toU64`); the Rust `as i64`
  reinterpretation is `toI64`, and Rust integer `/` on `i64` is
  truncating division (`Int.tdiv`).
* Rust `f64` and `str::parse::<f64>`: modelled exactly over `Rat`.
  `parseNum` follows the grammar of Rust float literals
  (optional sign, decimal digits with an optional point, optional
  decimal exponent); the special forms inf, infinity and nan accepted by
  Rust are outside the model, as is rounding to binary floating point.
  The claims under study depend only on parse success or failure and on
  flooring, which the exact rational model captures.
* chrono: `NaiveDate::parse_from_str(s, "%Y-%m-%d")` is modelled by
  `parseYMD` on strings that are exactly `YYYY-MM-DD` with a four digit
  zero padded year; chrono in addition accepts some non padded or
  wider-year forms, which no claim reaches.  A parsed date at 00:00:00
  has `timestamp_millis` equal to its proleptic Gregorian day number
  times 86400000 (no leap seconds); `daysFromCivil` is that day number
  and `civilFromDays` its inverse, the standard civil-from-days
  computation.
* The local time zone (chrono `Local`) is modelled as a fixed offset
  `tz` in seconds east of UTC; daylight saving transitions are not
  modelled, so `Local.timestamp_opt` always yields a single result.
  Rendering `%Y-%m-%d` of an instant at offset `tz` is
  `civilFromDays (Int.fdiv (secs + tz) 86400)`; the sub-second
  nanosecond component never moves an instant across a second, hence
  never across a day, and is dropped where the receiving value is
  in range.  The chrono year range limit (about +-262143) is not
  modelled; every claim stays within four digit years.
* `update_and_render` comes from the `derive_renderable_props` macro of
  this repository, which is not among the given sources.  Modelled from
  the spec: a patch is emitted exactly when the submitted filter list
  differs from the current one (`emitsPatch`); the submitted list itself
  is the `Option (List Filter)` result of the update functions, `none`
  standing for the panic of a failed `expect` or `unwrap`.
-/

namespace Persp

/-- Column types, from the `Type` enumeration of `crate::config` as used by
this component (`Type::String`, `Integer`, `Float`, `Boolean`, `Date`,
`Datetime`). -/
inductive ColumnType where
  | String
  | Integer
  | Float
  | Boolean
  | Date
  | Datetime
deriving DecidableEq, BEq, Repr

/-- Filter operators, from the `FilterOp` enumeration of `crate::config` as
used by this component. -/
inductive FilterOp where
  | EQ
  | NE
  | GT
  | GTE
  | LT
  | LTE
  | BeginsWith
  | Contains
  | EndsWith
  | In
  | IsNull
  | IsNotNull
deriving DecidableEq, BEq, Repr

/-- Scalar filter values. `Float` carries an exact rational standing for the
Rust `f64`; `DateTime` carries the stored `u64` millisecond value as a
natural number below 2 ^ 64. -/
inductive Scalar where
  | String (s : String)
  | Float (q : Rat)
  | DateTime (ms : Nat)
  | Null
deriving DecidableEq, BEq

/-- A filter term is a scalar or an array of scalars (the latter used by the
`In` operator). -/
inductive FilterTerm where
  | Scalar (s : Scalar)
  | Array (xs : List Scalar)
deriving DecidableEq, BEq

/-- One filter condition: column name, operator, term (the Rust tuple
struct `Filter`). -/
def Filter : Type := String × FilterOp × FilterTerm

instance : DecidableEq Filter := by unfold Filter; infer_instance

/-- Column metadata lookup, abstracting
`session.metadata().get_column_table_type`: `none` when the column is
unknown (the Rust side then panics through `unwrap`). -/
def Metadata : Type := String → Option ColumnType

/-! ## Character and string utilities (models of the Rust std functions) -/

/-- Decimal digit value of a character, `none` for non digits. -/
def digit? (c : Char) : Option Nat :=
  if c = '0' then some 0
  else if c = '1' then some 1
  else if c = '2' then some 2
  else if c = '3' then some 3
  else if c = '4' then some 4
  else if c = '5' then some 5
  else if c = '6' then some 6
  else if c = '7' then some 7
  else if c = '8' then some 8
  else if c = '9' then some 9
  else none

/-- The decimal digit character for a value below ten. -/
def digitChar (n : Nat) : Char :=
  if n = 0 then '0'
  else if n = 1 then '1'
  else if n = 2 then '2'
  else if n = 3 then '3'
  else if n = 4 then '4'
  else if n = 5 then '5'
  else if n = 6 then '6'
  else if n = 7 then '7'
  else if n = 8 then '8'
  else '9'

def isDigitCh (c : Char) : Bool := (digit? c).isSome

/-- Split a character list at every occurrence of `sep`, keeping empty
pieces: the model of Rust `str::split`. -/
def splitOnCh (sep : Char) : List Char → List (List Char)
  | [] => [[]]
  | c :: rest =>
    if c = sep then [] :: splitOnCh sep rest
    else
      match splitOnCh sep rest with
      | [] => [[c]]
      | p :: ps => (c :: p) :: ps

/-- Strip leading and trailing whitespace: the model of Rust `str::trim`
over the ASCII whitespace characters (Rust also strips the rarer Unicode
whitespace code points, which no claim involves). -/
def trimCh (l : List Char) : List Char :=
  (((l.dropWhile Char.isWhitespace).reverse).dropWhile Char.isWhitespace).reverse

/-- The `In` branch of `update_filter_value`:
`val.split(',').map(|x| Scalar::String(x.trim().to_owned())).collect()`. -/
def splitCommaTrim (s : String) : List Scalar :=
  (splitOnCh ',' s.data).map fun piece => Scalar.String ⟨trimCh piece⟩

/-! ## Rational model of `str::parse::<f64>` -/

/-- Value of a digit list read in base ten (digits assumed checked). -/
def natOfDigits (l : List Char) : Nat :=
  l.foldl (fun a c => 10 * a + (digit? c).getD 0) 0

/-- Mantissa part: `Digits`, `Digits.Digits?` or `.Digits` (at least one
digit overall), as in the Rust float grammar. -/
def parseMantissa (l : List Char) : Option Rat :=
  let ip := l.takeWhile isDigitCh
  let rest := l.dropWhile isDigitCh
  match rest with
  | [] => if ip = [] then none else some (natOfDigits ip : Rat)
  | '.' :: fp =>
    if fp.all isDigitCh ∧ (ip ≠ [] ∨ fp ≠ []) then
      some ((natOfDigits ip : Rat) + (natOfDigits fp : Rat) / (10 : Rat) ^ fp.length)
    else none
  | _ => none

/-- Exponent part after `e` or `E`: optional sign then a nonempty digit
run. -/
def parseExpPart (l : List Char) : Option Int :=
  match l with
  | '+' :: r => if r ≠ [] ∧ r.all isDigitCh then some (natOfDigits r : Int) else none
  | '-' :: r => if r ≠ [] ∧ r.all isDigitCh then some (-(natOfDigits r : Int)) else none
  | r => if r ≠ [] ∧ r.all isDigitCh then some (natOfDigits r : Int) else none

/-- Exact rational model of `str::parse::<f64>` on finite decimal
literals; see the module comment for scope. -/
def parseNum (s : String) : Option Rat :=
  let body : Rat × List Char :=
    match s.data with
    | '+' :: r => (1, r)
    | '-' :: r => (-1, r)
    | r => (1, r)
  let mant := body.2.takeWhile fun c => ¬(c = 'e' ∨ c = 'E')
  let rest := body.2.dropWhile fun c => ¬(c = 'e' ∨ c = 'E')
  match rest with
  | [] => (parseMantissa mant).map fun q => body.1 * q
  | _ :: expPart =>
    match parseMantissa mant, parseExpPart expPart with
    | some q, some ex => some (body.1 * q * (10 : Rat) ^ ex)
    | _, _ => none

/-! ## Calendar model (chrono semantics) -/

/-- Proleptic Gregorian leap year rule, as used by chrono. -/
def isLeap (y : Int) : Bool :=
  y % 4 = 0 ∧ (y % 100 ≠ 0 ∨ y % 400 = 0)

/-- Number of days of month `m` (1..12) in year `y`. -/
def daysInMonth (y : Int) (m : Nat) : Nat :=
  if m = 2 then (if isLeap y then 29 else 28)
  else if m = 4 ∨ m = 6 ∨ m = 9 ∨ m = 11 then 30
  else 31

/-- Validity of a calendar date, as accepted by chrono
`NaiveDate::from_ymd`. -/
def validYMD (y : Int) (m d : Nat) : Prop :=
  1 ≤ m ∧ m ≤ 12 ∧ 1 ≤ d ∧ d ≤ daysInMonth y m

instance (y : Int) (m d : Nat) : Decidable (validYMD y m d) := by
  unfold validYMD; infer_instance

/-- The year shifted so that March is the first month (the civil-from-days
computation counts years from March). -/
def marchYear (y : Int) (m : Nat) : Int := if m ≤ 2 then y - 1 else y

/-- Month index in the March-based year: 0 for March .. 11 for February. -/
def mpOf (m : Nat) : Nat := if 2 < m then m - 3 else m + 9

/-- Day of the March-based year, 0 for March 1. -/
def doyOf (m d : Nat) : Nat := (153 * mpOf m + 2) / 5 + d - 1

/-- First day (within the era) of the March-based year `yoe` of its
era: 365 per year plus the leap corrections. -/
def soy (yoe : Nat) : Nat := 365 * yoe + yoe / 4 - yoe / 100

/-- Leap-day adjustment used to recover the year of era from a day of
era. -/
def hAdj (x : Nat) : Nat := x - x / 1460 + x / 36524 - x / 146096

/-- Day number of a civil date counted from 1970-01-01 (day 0), the value
`chrono` exposes through `timestamp` at midnight divided by 86400.  This
is the standard civil-from-days / days-from-civil bijection. -/
def daysFromCivil (y : Int) (m d : Nat) : Int :=
  (marchYear y m).fdiv 400 * 146097
    + ((soy ((marchYear y m) - (marchYear y m).fdiv 400 * 400).toNat + doyOf m d : Nat) : Int)
    - 719468

/-- Inverse of `daysFromCivil`: the civil date of a day number. -/
def civilFromDays (z : Int) : Int × Nat × Nat :=
  let era : Int := (z + 719468).fdiv 146097
  let doe : Nat := (z + 719468 - era * 146097).toNat
  let yoe : Nat := hAdj doe / 365
  let doy : Nat := doe - soy yoe
  let mp : Nat := (5 * doy + 2) / 153
  let d : Nat := doy - (153 * mp + 2) / 5 + 1
  let m : Nat := if mp < 10 then mp + 3 else mp - 9
  ((yoe : Int) + era * 400 + (if m ≤ 2 then 1 else 0), m, d)

/-- Strict `YYYY-MM-DD` parse: model of
`NaiveDate::parse_from_str(&val, "%Y-%m-%d")` on its claim-relevant
domain (see module comment).  Returns year, month, day of a valid
calendar date. -/
def parseYMD (s : String) : Option (Nat × Nat × Nat) :=
  match s.data with
  | [y3, y2, y1, y0, h1, mo1, mo0, h2, d1, d0] =>
    if h1 = '-' ∧ h2 = '-' then
      match digit? y3, digit? y2, digit? y1, digit? y0,
            digit? mo1, digit? mo0, digit? d1, digit? d0 with
      | some a, some b, some c, some d, some e, some f, some g, some h =>
        let y := 1000 * a + 100 * b + 10 * c + d
        let m := 10 * e + f
        let dd := 10 * g + h
        if validYMD y m dd then some (y, m, dd) else none
      | _, _, _, _, _, _, _, _ => none
    else none
  | _ => none

/-- Zero padded two digit rendering (chrono `%m`, `%d`). -/
def pad2 (n : Nat) : List Char := [digitChar (n / 10 % 10), digitChar (n % 10)]

/-- Zero padded four digit rendering (chrono `%Y` for years 0..9999; the
wider and negative years chrono can print are outside every claim and
rendered here with a sign and their low four digits). -/
def pad4 (n : Nat) : List Char :=
  [digitChar (n / 1000 % 10), digitChar (n / 100 % 10),
   digitChar (n / 10 % 10), digitChar (n % 10)]

/-- Rendering of a civil date as `%Y-%m-%d`. -/
def renderYMD : Int × Nat × Nat → String
  | (y, m, d) =>
    ⟨(if y < 0 then ['-'] else []) ++ pad4 y.toNat ++ ['-'] ++ pad2 m ++ ['-'] ++ pad2 d⟩

/-! ## Machine integer casts -/

/-- Rust `as u64` on an `i64`-ranged integer: reduce modulo 2 ^ 64
(18446744073709551616). -/
def toU64 (i : Int) : Nat := (i % 18446744073709551616).toNat

/-- Rust `as i64` reinterpretation of a stored `u64` value: values of
2 ^ 63 (9223372036854775808) and above wrap to negatives. -/
def toI64 (n : Nat) : Int :=
  if n % 18446744073709551616 < 9223372036854775808
  then (n % 18446744073709551616 : Nat)
  else (n % 18446744073709551616 : Nat) - 18446744073709551616

/-! ## The embedded component functions -/

/-- `FilterItemProperties::is_suggestable`, as a function of the filter
operator and the column type delivered by the metadata lookup. -/
def suggestable (op : FilterOp) (ty : ColumnType) : Bool :=
  op == FilterOp.EQ && ty == ColumnType.String

/-- `FilterItemProperties::get_filter_ops`, as a function of the column
type delivered by the metadata lookup. -/
def filterOps (ty : ColumnType) : List FilterOp :=
  match ty with
  | ColumnType.String =>
    [FilterOp.EQ, FilterOp.NE, FilterOp.GT, FilterOp.GTE, FilterOp.LT,
     FilterOp.LTE, FilterOp.BeginsWith, FilterOp.Contains, FilterOp.EndsWith,
     FilterOp.In, FilterOp.IsNotNull, FilterOp.IsNull]
  | _ =>
    [FilterOp.EQ, FilterOp.NE, FilterOp.GT, FilterOp.GTE, FilterOp.LT,
     FilterOp.LTE, FilterOp.IsNotNull, FilterOp.IsNull]

/-- `FilterItemProperties::update_filter_op`: clone the filter list, write
the new operator at `idx`, submit the list.  `none` is the panic of the
failed `expect` on an out of range index.  The column metadata is never
consulted on this path. -/
def updateFilterOp (filters : List Filter) (idx : Nat) (op : FilterOp) :
    Option (List Filter) :=
  match filters.get? idx with
  | none => none
  | some f => some (filters.set idx (f.1, op, f.2.2))

/-- The Date branch of `update_filter_value`: parse against `%Y-%m-%d`,
take midnight of the parsed (time zone less) day, store
`timestamp_millis as u64`; any failure stores `Null`. -/
def dateScalarOfRaw (raw : String) : Scalar :=
  match parseYMD raw with
  | some (y, m, d) => Scalar.DateTime (toU64 (daysFromCivil (y : Int) m d * 86400000))
  | none => Scalar.Null

/-- `FilterItemProperties::update_filter_value`: clone the filter list,
rewrite the term at `idx` from the raw text, submit the list.  `none` is
a panic: the failed `expect` on a bad index, or the failed `unwrap` of
the metadata lookup (reached only on the non-`In` path). -/
def updateFilterValue (md : Metadata) (filters : List Filter) (idx : Nat)
    (raw : String) : Option (List Filter) :=
  match filters.get? idx with
  | none => none
  | some f =>
    if f.2.1 = FilterOp.In then
      some (filters.set idx (f.1, f.2.1, FilterTerm.Array (splitCommaTrim raw)))
    else
      match md f.1 with
      | none => none
      | some ty =>
        match ty with
        | ColumnType.String =>
          some (filters.set idx (f.1, f.2.1, FilterTerm.Scalar (Scalar.String raw)))
        | ColumnType.Integer =>
          some (filters.set idx (f.1, f.2.1,
            if raw = "" then FilterTerm.Scalar Scalar.Null
            else match parseNum raw with
              | some q => FilterTerm.Scalar (Scalar.Float ((⌊q⌋ : Int) : Rat))
              | none => f.2.2))
        | ColumnType.Float =>
          some (filters.set idx (f.1, f.2.1,
            if raw = "" then FilterTerm.Scalar Scalar.Null
            else match parseNum raw with
              | some q => FilterTerm.Scalar (Scalar.Float q)
              | none => f.2.2))
        | ColumnType.Date =>
          some (filters.set idx (f.1, f.2.1, FilterTerm.Scalar (dateScalarOfRaw raw)))
        | _ => some filters

/-- Modelled from the spec: the `Display` rendering of a `FilterTerm`
(`format!` in the `create` and `change` fallthrough arms) lives in
`crate::config`, which is not among the given sources.  The spec says
scalars render in their canonical text form with `Null` as an empty
marker; no claim under study depends on this rendering, so the model
keeps it minimal. -/
def termDisplay : FilterTerm → String
  | FilterTerm.Scalar (Scalar.String s) => s
  | FilterTerm.Scalar (Scalar.Float q) => toString q
  | FilterTerm.Scalar Scalar.Null => ""
  | FilterTerm.Scalar (Scalar.DateTime _) => ""
  | FilterTerm.Array _ => ""

/-- The `change` lifecycle hook at local offset `tz` (seconds): how the
editable text is repopulated from the stored term when new props arrive.
`none` means the input text is left unchanged (the guarded DateTime arm
updates only for a positive reinterpreted millisecond value). -/
def changeInputUpdate (tz : Int) (term : FilterTerm) : Option String :=
  match term with
  | FilterTerm.Scalar (Scalar.DateTime x) =>
    let rescaled : Int := toI64 x
    if 0 < rescaled then
      some (renderYMD (civilFromDays ((Int.tdiv rescaled 1000 + tz).fdiv 86400)))
    else none
  | t => some (termDisplay t)

/-- The `create` lifecycle hook at local offset `tz` (seconds): the initial
editable text computed from the props.  The DateTime arm is unguarded;
`none` models the panic of `Local.timestamp` when the wrapped-in nanosecond
argument leaves the valid range (below two seconds worth of nanoseconds). -/
def createInput (tz : Int) (term : FilterTerm) : Option String :=
  match term with
  | FilterTerm.Scalar (Scalar.DateTime x) =>
    let nanos : Nat := ((Int.tmod (toI64 x) 1000 * 1000) % (2 ^ 32 : Int)).toNat
    if nanos < 2000000000 then
      some (renderYMD (civilFromDays ((Int.tdiv (toI64 x) 1000 + tz).fdiv 86400)))
    else none
  | t => some (termDisplay t)

/-- Modelled from the spec: `update_and_render` (from the
`derive_renderable_props` macro, not among the given sources) emits a
patch exactly when the submitted filter list differs from the current
one. -/
def emitsPatch (old new : List Filter) : Prop := new ≠ old

/-! ## List helpers -/

theorem get?_set_self {α : Type _} (l : List α) (i : Nat) (x y : α)
    (h : l.get? i = some y) : (l.set i x).get? i = some x := by
  induction l generalizing i with
  | nil => simp at h
  | cons a t ih =>
    cases i with
    | zero => simp
    | succ j => simpa using ih j (by simpa using h)

theorem set_get?_eq {α : Type _} (l : List α) (i : Nat) (y : α)
    (h : l.get? i = some y) : l.set i y = l := by
  induction l generalizing i with
  | nil => simp at h
  | cons a t ih =>
    cases i with
    | zero => simp_all
    | succ j => simpa using ih j (by simpa using h)

theorem get?_lt_length {α : Type _} (l : List α) (i : Nat) (y : α)
    (h : l.get? i = some y) : i < l.length := by
  by_contra hge
  rw [List.get?_eq_none.2 (by omega)] at h
  exact Option.noConfusion h

theorem get?_of_lt_length {α : Type _} (l : List α) (i : Nat)
    (h : i < l.length) : ∃ y, l.get? i = some y := by
  induction l generalizing i with
  | nil => simp at h
  | cons a t ih =>
    cases i with
    | zero => exact ⟨a, rfl⟩
    | succ j => simpa using ih j (by simpa using h)

/-! ## Digit character lemmas -/

theorem digit?_lt {c : Char} {v : Nat} (h : digit? c = some v) : v < 10 := by
  unfold digit? at h
  split_ifs at h <;> injection h with hv <;> omega

theorem digitChar_digit? {c : Char} {v : Nat} (h : digit? c = some v) :
    digitChar v = c := by
  unfold digit? at h
  split_ifs at h <;> (injection h with hv; subst hv; subst_vars; rfl)

/-! ## Integer division helpers -/

theorem intTdiv_ofNat (m k : Nat) : Int.tdiv (m : Int) (k : Int) = ((m / k : Nat) : Int) := rfl

theorem intFdiv_ofNat (m k : Nat) : Int.fdiv (m : Int) (k : Int) = ((m / k : Nat) : Int) := by
  cases m with
  | zero => simp [Int.fdiv]
  | succ n => rfl

/-- Floor division recovers the quotient of a division with a remainder in
range. -/
theorem fdiv_mul_add (era : Int) (r : Int) (k : Int) (hk : 0 < k)
    (h0 : 0 ≤ r) (h1 : r < k) : (era * k + r).fdiv k = era := by
  rw [Int.fdiv_eq_ediv _ (le_of_lt hk), add_comm, Int.add_mul_ediv_right _ _ (ne_of_gt hk),
    Int.ediv_eq_zero_of_lt h0 h1, zero_add]

/-! ## Calendar recovery lemmas -/

/-- Number of days of the March-based month `mp`. -/
def mpDays (mp : Nat) : Nat :=
  if mp = 1 ∨ mp = 3 ∨ mp = 6 ∨ mp = 8 then 30 else if mp = 11 then 29 else 31

/-- Recovery of the March-based month index and a bound for the day of
year, checked over all month and day combinations. -/
theorem mpRecover : ∀ mp, mp < 12 → ∀ e, e < 31 → e + 1 ≤ mpDays mp →
    (5 * ((153 * mp + 2) / 5 + (e + 1) - 1) + 2) / 153 = mp ∧
    (153 * mp + 2) / 5 + (e + 1) - 1 ≤ 365 := by
  decide

/-- A day of year of 365 can only be the leap day, February 29. -/
theorem mpLeapDay : ∀ mp, mp < 12 → ∀ e, e < 31 → e + 1 ≤ mpDays mp →
    ((153 * mp + 2) / 5 + (e + 1) - 1 = 365 → mp = 11 ∧ e + 1 = 29) := by
  decide

theorem hAdj_mono_step (x : Nat) : hAdj x ≤ hAdj (x + 1) := by
  unfold hAdj; omega

theorem hAdj_mono {x y : Nat} (h : x ≤ y) : hAdj x ≤ hAdj y := by
  induction y with
  | zero => simp_all
  | succ n ih =>
    rcases Nat.lt_or_ge x (n + 1) with hlt | hge
    · exact le_trans (ih (by omega)) (hAdj_mono_step n)
    · have : x = n + 1 := by omega
      simp [this]

set_option maxRecDepth 4000 in
/-- Endpoint values of the year-of-era recovery, checked for each of the
400 years of an era. -/
theorem soyEndpoints : ∀ yoe, yoe < 400 →
    365 * yoe ≤ hAdj (soy yoe) ∧ hAdj (soy yoe + 364) < 365 * yoe + 365 := by
  decide

set_option maxRecDepth 4000 in
/-- Endpoint value of the year-of-era recovery for the leap day of a leap
year, checked for each of the 400 years of an era. -/
theorem soyLeapEndpoint : ∀ yoe, yoe < 400 →
    ((yoe + 1) % 4 = 0 ∧ ((yoe + 1) % 100 ≠ 0 ∨ yoe = 399)) →
      hAdj (soy yoe + 365) < 365 * yoe + 365 := by
  decide

/-- Recovery of the year of era from a day of era. -/
theorem yoeRecover (yoe doy : Nat) (h1 : yoe ≤ 399)
    (h2 : doy ≤ 364 ∨ (doy = 365 ∧ (yoe + 1) % 4 = 0 ∧ ((yoe + 1) % 100 ≠ 0 ∨ yoe = 399))) :
    hAdj (soy yoe + doy) / 365 = yoe := by
  obtain ⟨hlo, hhi⟩ := soyEndpoints yoe (by omega)
  have hlo' : 365 * yoe ≤ hAdj (soy yoe + doy) :=
    le_trans hlo (hAdj_mono (by omega))
  have hhi' : hAdj (soy yoe + doy) < 365 * yoe + 365 := by
    rcases h2 with h | ⟨h365, hc⟩
    · exact lt_of_le_of_lt (hAdj_mono (by omega)) hhi
    · exact lt_of_le_of_lt (hAdj_mono (by omega)) (soyLeapEndpoint yoe (by omega) hc)
  omega

end Persp

namespace Persp

theorem mpOf_lt (m : Nat) (h2 : m ≤ 12) : mpOf m < 12 := by
  unfold mpOf; split <;> omega

theorem mpDays_le (mp : Nat) : mpDays mp ≤ 31 := by
  unfold mpDays; split_ifs <;> omega

theorem valid_le_mpDays {y : Int} {m d : Nat} (h : validYMD y m d) :
    d ≤ mpDays (mpOf m) := by
  obtain ⟨h1, h2, h3, h4⟩ := h
  interval_cases m <;>
    [skip; (cases hL : isLeap y); skip; skip; skip; skip; skip; skip; skip; skip; skip; skip] <;>
    simp_all [daysInMonth, mpOf, mpDays] <;>
    omega

theorem valid_leap {y : Int} {m d : Nat} (h : validYMD y m d)
    (h11 : mpOf m = 11) (h29 : d = 29) : isLeap y = true := by
  obtain ⟨h1, h2, h3, h4⟩ := h
  have hm : m = 2 := by unfold mpOf at h11; split at h11 <;> omega
  subst hm h29
  simp only [daysInMonth] at h4
  cases hL : isLeap y
  · rw [hL] at h4; simp at h4
  · rfl

theorem soy_le (r : Nat) (h : r ≤ 399) : soy r ≤ 145731 := by
  unfold soy; omega

theorem civil_core (era : Int) (r mp dd : Nat) (hr : r ≤ 399) (hmp : mp < 12)
    (hd1 : 1 ≤ dd) (hdm : dd ≤ mpDays mp)
    (hleap : (153 * mp + 2) / 5 + dd - 1 = 365 →
      (r + 1) % 4 = 0 ∧ ((r + 1) % 100 ≠ 0 ∨ r = 399)) :
    civilFromDays (era * 146097 + ((soy r + ((153 * mp + 2) / 5 + dd - 1) : Nat) : Int) - 719468)
      = ((r : Int) + era * 400 + (if (if mp < 10 then mp + 3 else mp - 9) ≤ 2 then 1 else 0),
         (if mp < 10 then mp + 3 else mp - 9), dd) := by
  have hdd31 : dd ≤ 31 := le_trans hdm (mpDays_le mp)
  have hmpr := mpRecover mp hmp (dd - 1) (by omega) (by omega)
  rw [show dd - 1 + 1 = dd by omega] at hmpr
  obtain ⟨hmp1, hdoy365⟩ := hmpr
  set doy : Nat := (153 * mp + 2) / 5 + dd - 1 with hdoy
  set doe : Nat := soy r + doy with hdoe
  have hdoe' : doe ≤ 146096 := by
    have := soy_le r hr; omega
  have hcancel : era * 146097 + (doe : Int) - 719468 + 719468 = era * 146097 + (doe : Int) := by
    ring
  unfold civilFromDays
  simp only [hcancel]
  rw [fdiv_mul_add era (doe : Int) 146097 (by norm_num) (by positivity) (by exact_mod_cast by omega)]
  rw [show era * 146097 + (doe : Int) - era * 146097 = (doe : Int) by ring]
  rw [Int.toNat_natCast]
  have hyoe : hAdj doe / 365 = r := by
    rw [hdoe]
    refine yoeRecover r doy hr ?_
    rcases Nat.lt_or_ge doy 365 with hlt | hge
    · exact Or.inl (by omega)
    · exact Or.inr ⟨by omega, hleap (by omega)⟩
  rw [hyoe]
  rw [show doe - soy r = doy by omega]
  rw [hmp1]
  rw [show doy - (153 * mp + 2) / 5 + 1 = dd by omega]

theorem civil_inv (y : Int) (m d : Nat) (h : validYMD y m d) :
    civilFromDays (daysFromCivil y m d) = (y, m, d) := by
  obtain ⟨hm1, hm2, hd1, hd4⟩ := h
  have hdm : d ≤ mpDays (mpOf m) := valid_le_mpDays ⟨hm1, hm2, hd1, hd4⟩
  have hmp : mpOf m < 12 := mpOf_lt m hm2
  set Y : Int := marchYear y m with hY
  set era : Int := Y.fdiv 400 with hera
  have hediv : era = Y / 400 := by rw [hera, Int.fdiv_eq_ediv _ (by norm_num)]
  have hmod : 400 * (Y / 400) + Y % 400 = Y := Int.ediv_add_emod Y 400
  have h0 : 0 ≤ Y % 400 := Int.emod_nonneg Y (by norm_num)
  have h1 : Y % 400 < 400 := Int.emod_lt_of_pos Y (by norm_num)
  set r : Nat := (Y - era * 400).toNat with hr
  have hrcast : (r : Int) = Y % 400 := by rw [hr, hediv]; omega
  have hr399 : r ≤ 399 := by omega
  have hdays : daysFromCivil y m d
      = era * 146097 + ((soy r + ((153 * mpOf m + 2) / 5 + d - 1) : Nat) : Int) - 719468 := by
    unfold daysFromCivil doyOf
    rw [← hY, ← hera, ← hr]
  have hleap : (153 * mpOf m + 2) / 5 + d - 1 = 365 →
      (r + 1) % 4 = 0 ∧ ((r + 1) % 100 ≠ 0 ∨ r = 399) := by
    intro h365
    have hld := mpLeapDay (mpOf m) hmp (d - 1)
      (by have := mpDays_le (mpOf m); omega) (by omega)
    rw [show d - 1 + 1 = d from by omega] at hld
    obtain ⟨hmp11, hd29⟩ := hld h365
    have hLy : isLeap y = true := valid_leap ⟨hm1, hm2, hd1, hd4⟩ hmp11 hd29
    have hm2' : m = 2 := by unfold mpOf at hmp11; split at hmp11 <;> omega
    have hYy : Y = y - 1 := by rw [hY]; unfold marchYear; rw [if_pos (by omega)]
    simp only [isLeap, decide_eq_true_eq] at hLy
    constructor
    · omega
    · rcases hLy.2 with hc | hc
      · left; omega
      · right; omega
  rw [hdays, civil_core era r (mpOf m) d hr399 hmp hd1 hdm hleap]
  have hmback : (if mpOf m < 10 then mpOf m + 3 else mpOf m - 9) = m := by
    by_cases h2m : 2 < m
    · rw [show mpOf m = m - 3 from by unfold mpOf; rw [if_pos h2m]]
      rw [if_pos (by omega)]; omega
    · rw [show mpOf m = m + 9 from by unfold mpOf; rw [if_neg h2m]]
      rw [if_neg (by omega)]; omega
  rw [hmback]
  have hyear : (r : Int) + era * 400 + (if m ≤ 2 then 1 else 0) = y := by
    by_cases hm2c : m ≤ 2
    · have hYy : Y = y - 1 := by rw [hY]; unfold marchYear; rw [if_pos hm2c]
      rw [if_pos hm2c]; omega
    · have hYy : Y = y := by rw [hY]; unfold marchYear; rw [if_neg hm2c]
      rw [if_neg hm2c]; omega
  rw [hyear]


theorem daysFromCivil_eq (y : Int) (m d : Nat) :
    ∃ E M : Int, 400 * E + M = marchYear y m ∧ 0 ≤ M ∧ M < 400 ∧
      daysFromCivil y m d
        = E * 146097 + ((soy M.toNat + doyOf m d : Nat) : Int) - 719468 := by
  refine ⟨marchYear y m / 400, marchYear y m % 400, Int.ediv_add_emod _ 400,
    Int.emod_nonneg _ (by norm_num), Int.emod_lt_of_pos _ (by norm_num), ?_⟩
  unfold daysFromCivil
  rw [Int.fdiv_eq_ediv _ (by norm_num)]
  have hsub : marchYear y m - marchYear y m / 400 * 400 = marchYear y m % 400 := by
    have := Int.ediv_add_emod (marchYear y m) 400
    omega
  rw [hsub]

theorem daysFromCivil_pos (y : Int) (m d : Nat) (h : validYMD y m d)
    (hy : 1970 ≤ y) (hne : ¬(y = 1970 ∧ m = 1 ∧ d = 1)) :
    1 ≤ daysFromCivil y m d := by
  obtain ⟨hm1, hm2, hd1, hd4⟩ := h
  have hd31 : d ≤ 31 := by
    have ha := valid_le_mpDays ⟨hm1, hm2, hd1, hd4⟩
    have hb := mpDays_le (mpOf m)
    omega
  obtain ⟨E, M, hEM, hM0, hM4, hEq⟩ := daysFromCivil_eq y m d
  rw [hEq]
  by_cases hm2c : m ≤ 2
  · have hYm : marchYear y m = y - 1 := by unfold marchYear; rw [if_pos hm2c]
    rw [hYm] at hEM
    interval_cases m
    · have hdoy : doyOf 1 d = 305 + d := by
        unfold doyOf mpOf; norm_num
      rw [hdoy]; unfold soy; omega
    · have hdoy : doyOf 2 d = 336 + d := by
        unfold doyOf mpOf; norm_num
      rw [hdoy]; unfold soy; omega
  · have hYm : marchYear y m = y := by unfold marchYear; rw [if_neg hm2c]
    rw [hYm] at hEM
    unfold soy; omega

theorem doyOf_le (m d : Nat) (hm : m ≤ 12) (hd : d ≤ 31) : doyOf m d ≤ 367 := by
  have hmp : mpOf m ≤ 11 := by unfold mpOf; split <;> omega
  unfold doyOf; omega

theorem daysFromCivil_le (y : Int) (m d : Nat) (hm : m ≤ 12) (hd : d ≤ 31)
    (hy : y ≤ 9999) : daysFromCivil y m d ≤ 4000000 := by
  obtain ⟨E, M, hEM, hM0, hM4, hEq⟩ := daysFromCivil_eq y m d
  rw [hEq]
  have hY : marchYear y m ≤ y := by unfold marchYear; split <;> omega
  have hdoy := doyOf_le m d hm hd
  unfold soy; omega


theorem parseYMD_inv {s : String} {y m d : Nat} (h : parseYMD s = some (y, m, d)) :
    validYMD (y : Int) m d ∧ y ≤ 9999 ∧ m ≤ 99 ∧ d ≤ 99 ∧
      renderYMD ((y : Int), m, d) = s := by
  obtain ⟨data⟩ := s
  rcases data with _ | ⟨c0, _ | ⟨c1, _ | ⟨c2, _ | ⟨c3, _ | ⟨c4, _ | ⟨c5, _ | ⟨c6,
    _ | ⟨c7, _ | ⟨c8, _ | ⟨c9, _ | ⟨c10, rest⟩⟩⟩⟩⟩⟩⟩⟩⟩⟩⟩ <;>
    (try (simp [parseYMD] at h))
  obtain ⟨⟨hs1, hs2⟩, h⟩ := h
  rcases h0 : digit? c0 with _ | v0 <;> rw [h0] at h <;> try exact Option.noConfusion h
  rcases h1 : digit? c1 with _ | v1 <;> rw [h1] at h <;> try exact Option.noConfusion h
  rcases h2 : digit? c2 with _ | v2 <;> rw [h2] at h <;> try exact Option.noConfusion h
  rcases h3 : digit? c3 with _ | v3 <;> rw [h3] at h <;> try exact Option.noConfusion h
  rcases h5 : digit? c5 with _ | v5 <;> rw [h5] at h <;> try exact Option.noConfusion h
  rcases h6 : digit? c6 with _ | v6 <;> rw [h6] at h <;> try exact Option.noConfusion h
  rcases h8 : digit? c8 with _ | v8 <;> rw [h8] at h <;> try exact Option.noConfusion h
  rcases h9 : digit? c9 with _ | v9 <;> rw [h9] at h <;> try exact Option.noConfusion h
  dsimp only at h
  split_ifs at h with hval
  injection h with h'
  injection h' with hY hMD
  injection hMD with hM hD
  subst hY hM hD hs1 hs2
  have b0 := digit?_lt h0
  have b1 := digit?_lt h1
  have b2 := digit?_lt h2
  have b3 := digit?_lt h3
  have b5 := digit?_lt h5
  have b6 := digit?_lt h6
  have b8 := digit?_lt h8
  have b9 := digit?_lt h9
  refine ⟨hval, by omega, by omega, by omega, ?_⟩
  unfold renderYMD pad4 pad2
  dsimp only
  rw [if_neg (by omega)]
  rw [show ((1000 * v0 + 100 * v1 + 10 * v2 + v3 : Nat) : Int).toNat
      = 1000 * v0 + 100 * v1 + 10 * v2 + v3 from by omega]
  rw [show (1000 * v0 + 100 * v1 + 10 * v2 + v3) / 1000 % 10 = v0 from by omega]
  rw [show (1000 * v0 + 100 * v1 + 10 * v2 + v3) / 100 % 10 = v1 from by omega]
  rw [show (1000 * v0 + 100 * v1 + 10 * v2 + v3) / 10 % 10 = v2 from by omega]
  rw [show (1000 * v0 + 100 * v1 + 10 * v2 + v3) % 10 = v3 from by omega]
  rw [show (10 * v5 + v6) / 10 % 10 = v5 from by omega]
  rw [show (10 * v5 + v6) % 10 = v6 from by omega]
  rw [show (10 * v8 + v9) / 10 % 10 = v8 from by omega]
  rw [show (10 * v8 + v9) % 10 = v9 from by omega]
  rw [digitChar_digit? h0, digitChar_digit? h1, digitChar_digit? h2, digitChar_digit? h3,
    digitChar_digit? h5, digitChar_digit? h6, digitChar_digit? h8, digitChar_digit? h9]
  rfl


theorem valid_d31 {y : Int} {m d : Nat} (h : validYMD y m d) : d ≤ 31 := by
  have ha := valid_le_mpDays h
  have hb := mpDays_le (mpOf m)
  omega

/-! ## Controller reduction helpers -/

theorem updateFilterOp_eq (filters : List Filter) (idx : Nat) (col : String)
    (op0 : FilterOp) (t0 : FilterTerm) (newOp : FilterOp)
    (hf : filters.get? idx = some (col, op0, t0)) :
    updateFilterOp filters idx newOp = some (filters.set idx (col, newOp, t0)) := by
  unfold updateFilterOp
  rw [hf]

theorem updateFilterOp_oob (filters : List Filter) (idx : Nat) (newOp : FilterOp)
    (h : filters.length ≤ idx) : updateFilterOp filters idx newOp = none := by
  unfold updateFilterOp
  rw [List.get?_eq_none.2 h]

theorem updateFilterValue_oob (md : Metadata) (filters : List Filter) (idx : Nat)
    (raw : String) (h : filters.length ≤ idx) :
    updateFilterValue md filters idx raw = none := by
  unfold updateFilterValue
  rw [List.get?_eq_none.2 h]

theorem updateFilterValue_in (md : Metadata) (filters : List Filter) (idx : Nat)
    (col : String) (prev : FilterTerm) (raw : String)
    (hf : filters.get? idx = some (col, FilterOp.In, prev)) :
    updateFilterValue md filters idx raw
      = some (filters.set idx (col, FilterOp.In, FilterTerm.Array (splitCommaTrim raw))) := by
  unfold updateFilterValue
  rw [hf]
  dsimp only
  rw [if_pos rfl]

theorem updateFilterValue_no_md (md : Metadata) (filters : List Filter) (idx : Nat)
    (col : String) (op : FilterOp) (prev : FilterTerm) (raw : String)
    (hf : filters.get? idx = some (col, op, prev)) (hop : op ≠ FilterOp.In)
    (hmd : md col = none) :
    updateFilterValue md filters idx raw = none := by
  unfold updateFilterValue
  rw [hf]
  dsimp only
  rw [if_neg hop, hmd]

theorem updateFilterValue_eq (md : Metadata) (filters : List Filter) (idx : Nat)
    (col : String) (op : FilterOp) (prev : FilterTerm) (raw : String) (ty : ColumnType)
    (hf : filters.get? idx = some (col, op, prev)) (hop : op ≠ FilterOp.In)
    (hmd : md col = some ty) :
    updateFilterValue md filters idx raw = some (
      match ty with
      | ColumnType.String => filters.set idx (col, op, FilterTerm.Scalar (Scalar.String raw))
      | ColumnType.Integer => filters.set idx (col, op,
          if raw = "" then FilterTerm.Scalar Scalar.Null
          else match parseNum raw with
            | some q => FilterTerm.Scalar (Scalar.Float ((⌊q⌋ : Int) : Rat))
            | none => prev)
      | ColumnType.Float => filters.set idx (col, op,
          if raw = "" then FilterTerm.Scalar Scalar.Null
          else match parseNum raw with
            | some q => FilterTerm.Scalar (Scalar.Float q)
            | none => prev)
      | ColumnType.Date => filters.set idx (col, op, FilterTerm.Scalar (dateScalarOfRaw raw))
      | _ => filters) := by
  unfold updateFilterValue
  rw [hf]
  dsimp only
  rw [if_neg hop]
  simp only [hmd]
  cases ty <;> rfl

theorem parseNum_empty : parseNum "" = none := by decide


/-! ## Claim C1 -/

/-- C1 counterexample: the round trip `format(parse(s, EQ, Date), Date) = s`
fails as stated.  At offset UTC+0 the epoch date 1970-01-01 parses to the
non-positive millisecond value 0, so `change` leaves the field unrendered;
at offset UTC-5 (-18000 seconds) the stored UTC midnight renders as the
previous local day; at an offset of a full day or more the next day is
rendered. -/
theorem C1_roundtrip_cex :
    changeInputUpdate 0 (FilterTerm.Scalar (dateScalarOfRaw "1970-01-01")) = none ∧
    changeInputUpdate (-18000) (FilterTerm.Scalar (dateScalarOfRaw "2021-01-01"))
      ≠ some "2021-01-01" ∧
    changeInputUpdate 86400 (FilterTerm.Scalar (dateScalarOfRaw "2021-01-01"))
      ≠ some "2021-01-01" := by
  refine ⟨by decide, by decide, by decide⟩

/-- C1 (amended): for `type = Date` and an input string matching
`YYYY-MM-DD` that denotes a valid calendar date strictly after 1970-01-01,
and a local offset of at least zero and less than one day east of UTC,
formatting the parsed term renders the input string back exactly. -/
theorem C1_date_roundtrip_amended (s : String) (y m d : Nat) (tz : Int)
    (hp : parseYMD s = some (y, m, d)) (hy : 1970 ≤ y)
    (hne : ¬(y = 1970 ∧ m = 1 ∧ d = 1)) (ht0 : 0 ≤ tz) (ht1 : tz < 86400) :
    changeInputUpdate tz (FilterTerm.Scalar (dateScalarOfRaw s)) = some s := by
  obtain ⟨hval, hy9999, hm99, hd99, hrender⟩ := parseYMD_inv hp
  have hvalid := hval
  obtain ⟨hm1, hm2, hd1, hd4⟩ := hval
  have hd31 : d ≤ 31 := valid_d31 hvalid
  have hpos : 1 ≤ daysFromCivil (y : Int) m d := by
    refine daysFromCivil_pos (y : Int) m d hvalid (by exact_mod_cast hy) ?_
    intro ⟨ha, hb, hc⟩
    exact hne ⟨by exact_mod_cast ha, hb, hc⟩
  have hle : daysFromCivil (y : Int) m d ≤ 4000000 :=
    daysFromCivil_le (y : Int) m d hm2 hd31 (by exact_mod_cast hy9999)
  obtain ⟨n, hn⟩ : ∃ n : Nat, (n : Int) = daysFromCivil (y : Int) m d :=
    ⟨_, Int.toNat_of_nonneg (by omega)⟩
  have hn1 : 1 ≤ n := by omega
  have hn4 : n ≤ 4000000 := by omega
  obtain ⟨t, htz⟩ : ∃ t : Nat, (t : Int) = tz := ⟨tz.toNat, Int.toNat_of_nonneg ht0⟩
  have ht864 : t < 86400 := by omega
  have hbig : n * 86400000 < 18446744073709551616 :=
    lt_of_le_of_lt (Nat.mul_le_mul_right _ hn4) (by norm_num)
  have hsmall : n * 86400000 < 9223372036854775808 :=
    lt_of_le_of_lt (Nat.mul_le_mul_right _ hn4) (by norm_num)
  have hmod : (n * 86400000) % 18446744073709551616 = n * 86400000 :=
    Nat.mod_eq_of_lt hbig
  have hscal : dateScalarOfRaw s = Scalar.DateTime (n * 86400000) := by
    unfold dateScalarOfRaw
    rw [hp]
    unfold toU64
    dsimp only
    rw [show daysFromCivil (y : Int) m d * 86400000 = ((n * 86400000 : Nat) : Int) from by
      rw [← hn]; push_cast; ring]
    rw [Int.emod_eq_of_lt (by positivity) (by exact_mod_cast hbig)]
    rw [Int.toNat_natCast]
  rw [hscal]
  unfold changeInputUpdate
  dsimp only
  have hI64 : toI64 (n * 86400000) = ((n * 86400000 : Nat) : Int) := by
    unfold toI64
    rw [hmod]
    rw [if_pos hsmall]
  rw [hI64]
  rw [if_pos (by omega)]
  have h1 : Int.tdiv ((n * 86400000 : Nat) : Int) 1000 = ((n * 86400000 / 1000 : Nat) : Int) :=
    intTdiv_ofNat _ _
  rw [h1]
  rw [show (n * 86400000 / 1000 : Nat) = n * 86400 from by omega]
  rw [show ((n * 86400 : Nat) : Int) + tz = ((n * 86400 + t : Nat) : Int) from by omega]
  have h2 : ((n * 86400 + t : Nat) : Int).fdiv 86400 = (((n * 86400 + t) / 86400 : Nat) : Int) :=
    intFdiv_ofNat _ _
  rw [h2]
  rw [show (n * 86400 + t) / 86400 = n from by omega]
  rw [hn, civil_inv (y : Int) m d hvalid, hrender]


/-- C1 witness: the round trip at 2021-03-05, offset UTC+1. -/
theorem C1_date_roundtrip_witness :
    parseYMD "2021-03-05" = some (2021, 3, 5) ∧
    changeInputUpdate 3600 (FilterTerm.Scalar (dateScalarOfRaw "2021-03-05"))
      = some "2021-03-05" :=
  ⟨by decide, C1_date_roundtrip_amended "2021-03-05" 2021 3 5 3600 (by decide) (by decide)
    (by decide) (by decide) (by decide)⟩

/-! ## Claim C2 -/

/-- C2: for an Integer- or Float-typed column with a non-In operator and a
non-empty raw input that fails to parse as a number, `update_filter_value`
submits the unchanged filter list, so the term keeps its previous value
and no patch is emitted for the keystroke. -/
theorem C2_numeric_failure_unchanged (md : Metadata) (filters : List Filter)
    (idx : Nat) (col : String) (op : FilterOp) (prev : FilterTerm)
    (ty : ColumnType) (raw : String)
    (hf : filters.get? idx = some (col, op, prev)) (hop : op ≠ FilterOp.In)
    (hmd : md col = some ty)
    (hty : ty = ColumnType.Integer ∨ ty = ColumnType.Float)
    (hraw : raw ≠ "") (hparse : parseNum raw = none) :
    updateFilterValue md filters idx raw = some filters ∧
      ¬ emitsPatch filters filters := by
  refine ⟨?_, by unfold emitsPatch; simp⟩
  rw [updateFilterValue_eq md filters idx col op prev raw ty hf hop hmd]
  rcases hty with h | h <;> subst h <;>
    · dsimp only
      rw [if_neg hraw, hparse]
      dsimp only
      rw [set_get?_eq filters idx _ hf]

/-- C2 witness: unparseable input "abc" on an Integer column leaves the
single-filter list unchanged. -/
theorem C2_numeric_failure_witness :
    updateFilterValue (fun _ => some ColumnType.Integer)
      [("c", FilterOp.EQ, FilterTerm.Scalar Scalar.Null)] 0 "abc"
      = some [("c", FilterOp.EQ, FilterTerm.Scalar Scalar.Null)] ∧
    ¬ emitsPatch [("c", FilterOp.EQ, FilterTerm.Scalar Scalar.Null)]
      [("c", FilterOp.EQ, FilterTerm.Scalar Scalar.Null)] :=
  C2_numeric_failure_unchanged (fun _ => some ColumnType.Integer)
    [("c", FilterOp.EQ, FilterTerm.Scalar Scalar.Null)] 0 "c" FilterOp.EQ
    (FilterTerm.Scalar Scalar.Null) ColumnType.Integer "abc" (by decide) (by decide)
    rfl (Or.inl rfl) (by decide) (by decide)

/-! ## Claim C3 -/

/-- Modelled from the spec words, for comparison only (claim C3): the
millisecond instant of midnight in the local time zone (offset `tz`
seconds east of UTC) of the day written in `raw`. -/
def specLocalMidnightMs (tz : Int) (raw : String) : Option Int :=
  (parseYMD raw).map fun x => daysFromCivil (x.1 : Int) x.2.1 x.2.2 * 86400000 - tz * 1000

/-- C3 counterexample: the Date branch does not interpret the text in the
local time zone: at offset UTC-5 the stored value is the UTC midnight
1609459200000, not the local midnight 1609477200000 required by the
claim.  Also, when the previous term is already Null, a failed date parse
submits an unchanged list, so no patch is emitted under the
change-emission model. -/
theorem C3_local_midnight_cex :
    dateScalarOfRaw "2021-01-01" = Scalar.DateTime 1609459200000 ∧
    specLocalMidnightMs (-18000) "2021-01-01" = some 1609477200000 ∧
    (1609459200000 : Int) ≠ 1609477200000 ∧
    updateFilterValue (fun _ => some ColumnType.Date)
      [("c", FilterOp.EQ, FilterTerm.Scalar Scalar.Null)] 0 "not-a-date"
      = some [("c", FilterOp.EQ, FilterTerm.Scalar Scalar.Null)] ∧
    ¬ emitsPatch [("c", FilterOp.EQ, FilterTerm.Scalar Scalar.Null)]
      [("c", FilterOp.EQ, FilterTerm.Scalar Scalar.Null)] := by
  refine ⟨by decide, by decide, by decide, by decide, by unfold emitsPatch; simp⟩

/-- C3 (amended): for a Date-typed column with a non-In operator, the raw
text is matched against the fixed `YYYY-MM-DD` pattern as a time zone
independent date and normalized to midnight UTC of that day; on success
the submitted update stores `DateTime` of the day number times 86400000
(cast `as u64`); on any parse failure it stores `Null`; in both cases the
update with the new term is submitted (a patch is emitted whenever this
changes the stored term). -/
theorem C3_date_parse_amended (md : Metadata) (filters : List Filter) (idx : Nat)
    (col : String) (op : FilterOp) (prev : FilterTerm) (raw : String)
    (hf : filters.get? idx = some (col, op, prev)) (hop : op ≠ FilterOp.In)
    (hmd : md col = some ColumnType.Date) :
    updateFilterValue md filters idx raw
      = some (filters.set idx (col, op, FilterTerm.Scalar (dateScalarOfRaw raw))) ∧
    (∀ y m d, parseYMD raw = some (y, m, d) →
      dateScalarOfRaw raw
        = Scalar.DateTime (toU64 (daysFromCivil (y : Int) m d * 86400000))) ∧
    (parseYMD raw = none → dateScalarOfRaw raw = Scalar.Null) := by
  refine ⟨?_, ?_, ?_⟩
  · rw [updateFilterValue_eq md filters idx col op prev raw ColumnType.Date hf hop hmd]
  · intro y m d hp
    unfold dateScalarOfRaw
    rw [hp]
  · intro hp
    unfold dateScalarOfRaw
    rw [hp]

/-- C3 witness: a valid date is stored as UTC midnight milliseconds, and an
invalid one clears the condition to Null. -/
theorem C3_date_parse_witness :
    updateFilterValue (fun _ => some ColumnType.Date)
      [("c", FilterOp.EQ, FilterTerm.Scalar (Scalar.String "x"))] 0 "2021-01-01"
      = some [("c", FilterOp.EQ, FilterTerm.Scalar (Scalar.DateTime 1609459200000))] ∧
    updateFilterValue (fun _ => some ColumnType.Date)
      [("c", FilterOp.EQ, FilterTerm.Scalar (Scalar.String "x"))] 0 "not-a-date"
      = some [("c", FilterOp.EQ, FilterTerm.Scalar Scalar.Null)] := by
  constructor
  · rw [(C3_date_parse_amended (fun _ => some ColumnType.Date)
      [("c", FilterOp.EQ, FilterTerm.Scalar (Scalar.String "x"))] 0 "c" FilterOp.EQ
      (FilterTerm.Scalar (Scalar.String "x")) "2021-01-01" (by decide) (by decide) rfl).1]
    decide
  · rw [(C3_date_parse_amended (fun _ => some ColumnType.Date)
      [("c", FilterOp.EQ, FilterTerm.Scalar (Scalar.String "x"))] 0 "c" FilterOp.EQ
      (FilterTerm.Scalar (Scalar.String "x")) "not-a-date" (by decide) (by decide) rfl).1]
    decide


/-- The split model agrees with the standard library list splitter. -/
theorem splitOnCh_eq_splitOn (sep : Char) (l : List Char) :
    splitOnCh sep l = l.splitOn sep := by
  induction l with
  | nil => rw [List.splitOn_nil]; rfl
  | cons c t ih =>
    simp only [splitOnCh]
    by_cases hc : c = sep
    · rw [if_pos hc, ih]
      simp only [List.splitOn, List.splitOnP_cons]
      simp [hc]
    · rw [if_neg hc]
      have hne : t.splitOn sep ≠ [] := List.splitOnP_ne_nil _ t
      rcases h : splitOnCh sep t with _ | ⟨p, ps⟩
      · rw [ih] at h
        exact absurd h hne
      · rw [ih] at h
        simp only [List.splitOn, List.splitOnP_cons] at h ⊢
        rw [h]
        simp [hc]

/-! ## Claim C4 -/

/-- C4: with the In operator the raw text is split on commas, each piece
trimmed and wrapped as a String scalar, and the term replaced by the
array of the pieces in order, for every metadata environment (the column
type is never consulted on this path, so the In rule takes precedence
over the per-type dispatch and works even for unknown columns).  The
second conjunct certifies that the split keeps every piece, empty ones
included, in left to right order: rejoining the pieces with commas
restores the raw text. -/
theorem C4_in_split (md : Metadata) (filters : List Filter) (idx : Nat)
    (col : String) (prev : FilterTerm) (raw : String)
    (hf : filters.get? idx = some (col, FilterOp.In, prev)) :
    updateFilterValue md filters idx raw
      = some (filters.set idx (col, FilterOp.In,
          FilterTerm.Array ((splitOnCh ',' raw.data).map
            fun piece => Scalar.String ⟨trimCh piece⟩))) ∧
    [','].intercalate (splitOnCh ',' raw.data) = raw.data :=
  ⟨updateFilterValue_in md filters idx col prev raw hf,
    by rw [splitOnCh_eq_splitOn]; exact List.intercalate_splitOn raw.data ','⟩

/-- C4 witness: the text 1,2, 3 (with a trailing space) becomes the three
string scalars 1, 2, 3 with whitespace trimmed and order preserved, and a
trailing comma keeps its empty piece, with a metadata environment that
knows no columns at all. -/
theorem C4_in_split_witness :
    updateFilterValue (fun _ => none)
      [("c", FilterOp.In, FilterTerm.Scalar Scalar.Null)] 0 "1,2, 3 "
      = some [("c", FilterOp.In, FilterTerm.Array
          [Scalar.String "1", Scalar.String "2", Scalar.String "3"])] ∧
    updateFilterValue (fun _ => none)
      [("c", FilterOp.In, FilterTerm.Scalar Scalar.Null)] 0 "a,"
      = some [("c", FilterOp.In, FilterTerm.Array
          [Scalar.String "a", Scalar.String ""])] := by
  constructor
  · rw [(C4_in_split (fun _ => none) [("c", FilterOp.In, FilterTerm.Scalar Scalar.Null)]
      0 "c" (FilterTerm.Scalar Scalar.Null) "1,2, 3 " (by decide)).1]
    decide
  · rw [(C4_in_split (fun _ => none) [("c", FilterOp.In, FilterTerm.Scalar Scalar.Null)]
      0 "c" (FilterTerm.Scalar Scalar.Null) "a," (by decide)).1]
    decide

/-! ## Claim C5 -/

/-- C5: `update_filter_op` replaces the operator at `idx` and leaves the
term untouched whatever the new operator is (even when the resulting
pair is structurally inconsistent), and a subsequent value edit after
switching to In replaces the term entirely with an Array, discarding the
prior scalar. -/
theorem C5_op_switch (md : Metadata) (filters : List Filter) (idx : Nat)
    (col : String) (op0 : FilterOp) (t0 : FilterTerm) (newOp : FilterOp) (raw : String)
    (hf : filters.get? idx = some (col, op0, t0)) :
    updateFilterOp filters idx newOp = some (filters.set idx (col, newOp, t0)) ∧
    updateFilterValue md (filters.set idx (col, FilterOp.In, t0)) idx raw
      = some ((filters.set idx (col, FilterOp.In, t0)).set idx
          (col, FilterOp.In, FilterTerm.Array (splitCommaTrim raw))) := by
  refine ⟨updateFilterOp_eq filters idx col op0 t0 newOp hf, ?_⟩
  exact updateFilterValue_in md _ idx col t0 raw
    (get?_set_self filters idx (col, FilterOp.In, t0) _ hf)

/-- C5 witness: switching a String-term filter to In leaves the scalar
term in place (an inconsistent pair), and the next value edit replaces it
with an array. -/
theorem C5_op_switch_witness :
    updateFilterOp [("c", FilterOp.EQ, FilterTerm.Scalar (Scalar.String "v"))] 0 FilterOp.In
      = some [("c", FilterOp.In, FilterTerm.Scalar (Scalar.String "v"))] ∧
    updateFilterValue (fun _ => some ColumnType.String)
      [("c", FilterOp.In, FilterTerm.Scalar (Scalar.String "v"))] 0 "a,b"
      = some [("c", FilterOp.In, FilterTerm.Array [Scalar.String "a", Scalar.String "b"])] := by
  have h := C5_op_switch (fun _ => some ColumnType.String)
    [("c", FilterOp.EQ, FilterTerm.Scalar (Scalar.String "v"))] 0 "c" FilterOp.EQ
    (FilterTerm.Scalar (Scalar.String "v")) FilterOp.In "a,b" (by decide)
  obtain ⟨h1, h2⟩ := h
  constructor
  · rw [h1]; decide
  · have h2' := h2
    rw [show ([("c", FilterOp.EQ, FilterTerm.Scalar (Scalar.String "v"))].set 0
        ("c", FilterOp.In, FilterTerm.Scalar (Scalar.String "v")))
      = [("c", FilterOp.In, FilterTerm.Scalar (Scalar.String "v"))] from by decide] at h2'
    rw [h2']
    decide

/-! ## Claim C6 -/

/-- C6 counterexample: `create` populates the editable field from a stored
`DateTime` unconditionally, so the non-positive value 0 renders the epoch
date (at offset UTC+0) instead of leaving the field unrendered. -/
theorem C6_create_epoch_cex :
    createInput 0 (FilterTerm.Scalar (Scalar.DateTime 0)) = some "1970-01-01" := by
  decide

/-- C6 (amended): in the `change` path a stored `DateTime` whose `as i64`
reinterpretation is non-positive leaves the editable text unchanged; the
unguarded `create` path instead formats the value unconditionally, as the
counterexample shows for the epoch. -/
theorem C6_change_guard (tz : Int) (x : Nat) (hx : toI64 x ≤ 0) :
    changeInputUpdate tz (FilterTerm.Scalar (Scalar.DateTime x)) = none := by
  unfold changeInputUpdate
  dsimp only
  rw [if_neg (by omega)]

/-- C6 witness: the guard at the wrapped-to-negative value 2 ^ 63 and at
zero. -/
theorem C6_change_guard_witness :
    toI64 9223372036854775808 ≤ 0 ∧ toI64 0 ≤ 0 ∧
    changeInputUpdate 0 (FilterTerm.Scalar (Scalar.DateTime 9223372036854775808)) = none ∧
    changeInputUpdate (-18000) (FilterTerm.Scalar (Scalar.DateTime 0)) = none :=
  ⟨by decide, by decide, C6_change_guard 0 9223372036854775808 (by decide),
    C6_change_guard (-18000) 0 (by decide)⟩

/-! ## Claim C7 -/

/-- C7: `get_filter_ops` returns for String exactly the twelve operators
EQ, NE, GT, GTE, LT, LTE, BeginsWith, Contains, EndsWith, In, IsNotNull,
IsNull in this order, and for every other type exactly EQ, NE, GT, GTE,
LT, LTE, IsNotNull, IsNull; every returned sequence is non-empty and
duplicate-free, and the String sequence contains every other sequence
plus the substring and In operators. -/
theorem C7_filter_ops : ∀ ty : ColumnType,
    filterOps ty = (if ty = ColumnType.String then
      [FilterOp.EQ, FilterOp.NE, FilterOp.GT, FilterOp.GTE, FilterOp.LT,
       FilterOp.LTE, FilterOp.BeginsWith, FilterOp.Contains, FilterOp.EndsWith,
       FilterOp.In, FilterOp.IsNotNull, FilterOp.IsNull]
    else
      [FilterOp.EQ, FilterOp.NE, FilterOp.GT, FilterOp.GTE, FilterOp.LT,
       FilterOp.LTE, FilterOp.IsNotNull, FilterOp.IsNull]) ∧
    filterOps ty ≠ [] ∧ (filterOps ty).Nodup ∧
    ((filterOps ty).all fun op => (filterOps ColumnType.String).contains op) = true ∧
    (([FilterOp.BeginsWith, FilterOp.Contains, FilterOp.EndsWith, FilterOp.In].all
      fun op => (filterOps ColumnType.String).contains op) = true) := by
  intro ty
  cases ty <;> exact ⟨by decide, by decide, by decide, by decide, by decide⟩


/-! ## Claim C8 -/

/-- C8: `is_suggestable` holds exactly when the operator is EQ and the
column type is String, and for no other of the operator and type
combinations. -/
theorem C8_suggestable : ∀ (op : FilterOp) (ty : ColumnType),
    suggestable op ty = true ↔ (op = FilterOp.EQ ∧ ty = ColumnType.String) := by
  intro op ty
  cases op <;> cases ty <;> decide

/-! ## Claim C9 -/

/-- C9: for a non-In operator, an Integer column maps the empty input to
Null and a parsed number to its floor, while a Float column maps the
empty input to Null and a parsed number to its exact value. -/
theorem C9_numeric_parse (md : Metadata) (filters : List Filter) (idx : Nat)
    (col : String) (op : FilterOp) (prev : FilterTerm) (raw : String) (q : Rat)
    (hf : filters.get? idx = some (col, op, prev)) (hop : op ≠ FilterOp.In) :
    (md col = some ColumnType.Integer →
      updateFilterValue md filters idx ""
        = some (filters.set idx (col, op, FilterTerm.Scalar Scalar.Null)) ∧
      (parseNum raw = some q →
        updateFilterValue md filters idx raw
          = some (filters.set idx (col, op,
              FilterTerm.Scalar (Scalar.Float ((⌊q⌋ : Int) : Rat)))))) ∧
    (md col = some ColumnType.Float →
      updateFilterValue md filters idx ""
        = some (filters.set idx (col, op, FilterTerm.Scalar Scalar.Null)) ∧
      (parseNum raw = some q →
        updateFilterValue md filters idx raw
          = some (filters.set idx (col, op, FilterTerm.Scalar (Scalar.Float q))))) := by
  constructor
  · intro hmd
    constructor
    · rw [updateFilterValue_eq md filters idx col op prev "" _ hf hop hmd]
      rfl
    · intro hq
      rw [updateFilterValue_eq md filters idx col op prev raw _ hf hop hmd]
      have hraw : raw ≠ "" := by
        intro he
        rw [he, parseNum_empty] at hq
        exact Option.noConfusion hq
      dsimp only
      rw [if_neg hraw, hq]
  · intro hmd
    constructor
    · rw [updateFilterValue_eq md filters idx col op prev "" _ hf hop hmd]
      rfl
    · intro hq
      rw [updateFilterValue_eq md filters idx col op prev raw _ hf hop hmd]
      have hraw : raw ≠ "" := by
        intro he
        rw [he, parseNum_empty] at hq
        exact Option.noConfusion hq
      dsimp only
      rw [if_neg hraw, hq]

/-- C9 witness: the text 3.7 parses to the rational 37/10; an Integer
column stores its floor 3 and a Float column stores 37/10 itself. -/
theorem C9_numeric_parse_witness :
    parseNum "3.7" = some (37 / 10 : Rat) ∧
    updateFilterValue (fun _ => some ColumnType.Integer)
      [("c", FilterOp.EQ, FilterTerm.Scalar Scalar.Null)] 0 "3.7"
      = some [("c", FilterOp.EQ, FilterTerm.Scalar (Scalar.Float 3))] ∧
    updateFilterValue (fun _ => some ColumnType.Float)
      [("c", FilterOp.EQ, FilterTerm.Scalar Scalar.Null)] 0 "3.7"
      = some [("c", FilterOp.EQ, FilterTerm.Scalar (Scalar.Float (37 / 10)))] ∧
    updateFilterValue (fun _ => some ColumnType.Integer)
      [("c", FilterOp.EQ, FilterTerm.Scalar (Scalar.String "x"))] 0 ""
      = some [("c", FilterOp.EQ, FilterTerm.Scalar Scalar.Null)] := by
  have hq : parseNum "3.7" = some (37 / 10 : Rat) := by
    simp [parseNum, parseMantissa, natOfDigits, isDigitCh, digit?]
    norm_num
  have hI := C9_numeric_parse (fun _ => some ColumnType.Integer)
    [("c", FilterOp.EQ, FilterTerm.Scalar Scalar.Null)] 0 "c" FilterOp.EQ
    (FilterTerm.Scalar Scalar.Null) "3.7" (37 / 10) (by decide) (by decide)
  have hF := C9_numeric_parse (fun _ => some ColumnType.Float)
    [("c", FilterOp.EQ, FilterTerm.Scalar Scalar.Null)] 0 "c" FilterOp.EQ
    (FilterTerm.Scalar Scalar.Null) "3.7" (37 / 10) (by decide) (by decide)
  have hE := C9_numeric_parse (fun _ => some ColumnType.Integer)
    [("c", FilterOp.EQ, FilterTerm.Scalar (Scalar.String "x"))] 0 "c" FilterOp.EQ
    (FilterTerm.Scalar (Scalar.String "x")) "3.7" (37 / 10) (by decide) (by decide)
  refine ⟨hq, ?_, ?_, ?_⟩
  · refine ((hI.1 rfl).2 hq).trans ?_
    have h3 : ((⌊(37 / 10 : Rat)⌋ : Int) : Rat) = 3 := by norm_num
    simp only [List.set, h3]
  · exact (hF.2 rfl).2 hq
  · exact (hE.1 rfl).1

/-! ## Claim C10 -/

/-- C10 counterexample: `update_filter_op` emits its patch without any
metadata lookup, so a column absent from the metadata does not make it
panic; the same holds for `update_filter_value` with the In operator. -/
theorem C10_no_metadata_cex :
    updateFilterOp [("c", FilterOp.EQ, FilterTerm.Scalar Scalar.Null)] 0 FilterOp.NE
      = some [("c", FilterOp.NE, FilterTerm.Scalar Scalar.Null)] ∧
    updateFilterValue (fun _ => none)
      [("c", FilterOp.In, FilterTerm.Scalar Scalar.Null)] 0 "x"
      = some [("c", FilterOp.In, FilterTerm.Array [Scalar.String "x"])] := by
  exact ⟨by decide, by decide⟩

/-- C10 (amended): both update functions index the filter list at `idx`
and panic exactly when it is out of range; `update_filter_value` looks up
the column type only on the non-In path and panics there exactly when
the column is absent; under the matching preconditions no panic is
reachable and a panic never submits an update. -/
theorem C10_access_safety (md : Metadata) (filters : List Filter) (idx : Nat)
    (newOp : FilterOp) (raw : String) :
    (∀ col op0 t0, filters.get? idx = some (col, op0, t0) →
      updateFilterOp filters idx newOp = some (filters.set idx (col, newOp, t0))) ∧
    (filters.length ≤ idx →
      updateFilterOp filters idx newOp = none ∧
      updateFilterValue md filters idx raw = none) ∧
    (∀ col t0, filters.get? idx = some (col, FilterOp.In, t0) →
      ∃ out, updateFilterValue md filters idx raw = some out) ∧
    (∀ col op0 t0 ty, filters.get? idx = some (col, op0, t0) → op0 ≠ FilterOp.In →
      md col = some ty → ∃ out, updateFilterValue md filters idx raw = some out) ∧
    (∀ col op0 t0, filters.get? idx = some (col, op0, t0) → op0 ≠ FilterOp.In →
      md col = none → updateFilterValue md filters idx raw = none) := by
  refine ⟨?_, ?_, ?_, ?_, ?_⟩
  · intro col op0 t0 hf
    exact updateFilterOp_eq filters idx col op0 t0 newOp hf
  · intro h
    exact ⟨updateFilterOp_oob filters idx newOp h, updateFilterValue_oob md filters idx raw h⟩
  · intro col t0 hf
    exact ⟨_, updateFilterValue_in md filters idx col t0 raw hf⟩
  · intro col op0 t0 ty hf hop hmd
    exact ⟨_, updateFilterValue_eq md filters idx col op0 t0 raw ty hf hop hmd⟩
  · intro col op0 t0 hf hop hmd
    exact updateFilterValue_no_md md filters idx col op0 t0 raw hf hop hmd

/-- C10 witness: a valid index succeeds, an out of range index yields the
panic marker, and a missing column on the non-In path yields the panic
marker. -/
theorem C10_access_safety_witness :
    updateFilterOp [("c", FilterOp.EQ, FilterTerm.Scalar Scalar.Null)] 0 FilterOp.LT
      = some [("c", FilterOp.LT, FilterTerm.Scalar Scalar.Null)] ∧
    updateFilterOp [("c", FilterOp.EQ, FilterTerm.Scalar Scalar.Null)] 1 FilterOp.LT = none ∧
    updateFilterValue (fun _ => none)
      [("c", FilterOp.EQ, FilterTerm.Scalar Scalar.Null)] 0 "x" = none := by
  have h1 := (C10_access_safety (fun _ => none)
    [("c", FilterOp.EQ, FilterTerm.Scalar Scalar.Null)] 0 FilterOp.LT "x").1
    "c" FilterOp.EQ (FilterTerm.Scalar Scalar.Null) (by decide)
  have h2 := (C10_access_safety (fun _ => none)
    [("c", FilterOp.EQ, FilterTerm.Scalar Scalar.Null)] 1 FilterOp.LT "x").2.1
    (by decide)
  have h3 := (C10_access_safety (fun _ => none)
    [("c", FilterOp.EQ, FilterTerm.Scalar Scalar.Null)] 0 FilterOp.LT "x").2.2.2.2
    "c" FilterOp.EQ (FilterTerm.Scalar Scalar.Null) (by decide) (by decide) rfl
  exact ⟨by rw [h1]; decide, h2.1, h3⟩

end Persp
